import Mathlib

/-!
Verification of the PKFX_Tools field-generation engine.

Shallow embedding of the relevant code of
`tools/makesomenoise/src/makesomenoise/noise_generator_gui.py` and
`tools/fxspritemaker/src/fxspritemaker/sprite_generator.py` /
`sprite_generator_gui.py`.

Modelling conventions:
* Python floats are modelled as real numbers (`ℝ`); where the code can
  divide by zero in numpy (producing `inf`/`nan`), an explicit extended
  value type `EFloat` models the IEEE outcomes.
* A scalar field is a total function `ℕ → ℕ → ℝ`; the `width`/`height`
  arguments delimit the grid, and theorems quantify over in-grid pixels.
  Indexing is `f y x` mirroring the source's `noise_map[y][x]`.
* The external noise primitives (the `noise`, `opensimplex` and
  `perlin_noise` libraries) are opaque parameters, bundled in
  `NoisePrims`; the spec's contract is that they return values in
  `[-1, 1]`.
* Python `%` on integers is `Int.emod` (both are nonnegative for a
  positive modulus); Python `//` and `%` on naturals are `Nat` division
  and modulus; Python `int()` on a float truncates toward zero.
-/

/-- Parameter bag for one noise layer (`params` dict of the source). -/
structure NoiseParams where
  scale : ℝ
  octaves : ℕ
  persistence : ℝ
  lacunarity : ℝ
  seed : ℤ
  power : ℝ
  warp : ℝ
  xOffset : ℝ
  yOffset : ℝ
  zOffset : ℝ
  sensitivity : ℝ
  invert : Bool

/-- The external noise primitives consumed by the engine:
`pnoise3 x y z octaves persistence lacunarity base` models
`noise.pnoise3(...)`; `osim3 seed x y z` models
`OpenSimplex(seed=seed).noise3(x, y, z)`; `pnl3 octaves seed x y z`
models `PerlinNoise(octaves=octaves, seed=seed)([x, y, z])`. -/
structure NoisePrims where
  pnoise3 : ℝ → ℝ → ℝ → ℕ → ℝ → ℝ → ℤ → ℝ
  osim3 : ℤ → ℝ → ℝ → ℝ → ℝ
  pnl3 : ℕ → ℤ → ℝ → ℝ → ℝ → ℝ

/-- The spec's contract for the simplex primitive: values in `[-1, 1]`. -/
def OsimBounded (pr : NoisePrims) : Prop :=
  ∀ s x y z, -1 ≤ pr.osim3 s x y z ∧ pr.osim3 s x y z ≤ 1

/-- `noise_map.max()` over the `h × w` grid.  The fold is seeded with
`f 0 0`, which is itself a grid entry whenever `1 ≤ h` and `1 ≤ w`. -/
noncomputable def gridMax (f : ℕ → ℕ → ℝ) (h w : ℕ) : ℝ :=
  (Finset.range h ×ˢ Finset.range w).fold max (f 0 0) fun q => f q.1 q.2

/-- `noise_map.min()` over the `h × w` grid. -/
noncomputable def gridMin (f : ℕ → ℕ → ℝ) (h w : ℕ) : ℝ :=
  (Finset.range h ×ˢ Finset.range w).fold min (f 0 0) fun q => f q.1 q.2

/-- Python `int()` on a rational: truncation toward zero. -/
def pyInt (q : ℚ) : ℤ :=
  if 0 ≤ q then ⌊q⌋ else ⌈q⌉

/-- `max(2, int(extent * blend_width))`: the blend-band thickness of
`make_seamless_blend` for one axis. -/
def blendBand (extent : ℕ) (blendWidth : ℚ) : ℤ :=
  max 2 (pyInt (extent * blendWidth))

/-- The per-axis blend weight of `make_seamless_blend`: `1 - i/b` inside
the near-edge band, `1 - (extent-1-i)/b` inside the far-edge band, else
`0`. -/
def edgeWeight (extent : ℕ) (b : ℤ) (i : ℕ) : ℚ :=
  if (i : ℤ) < b then 1 - (i : ℚ) / (b : ℚ)
  else if (extent : ℤ) - b ≤ (i : ℤ) then 1 - ((extent : ℚ) - 1 - (i : ℚ)) / (b : ℚ)
  else 0

/-- `NoiseGenerator.make_seamless_blend`: per pixel, if both axis weights
are zero the original value is kept; otherwise the pixel is bilinearly
blended with its half-period wraparounds. -/
noncomputable def make_seamless_blend (f : ℕ → ℕ → ℝ) (h w : ℕ) (blendWidth : ℚ) : ℕ → ℕ → ℝ :=
  fun y x =>
    let bh := blendBand h blendWidth
    let bw := blendBand w blendWidth
    let wy := edgeWeight h bh y
    let wx := edgeWeight w bw x
    if wy = 0 ∧ wx = 0 then f y x
    else
      let p00 := f y x
      let p01 := f y ((x + w / 2) % w)
      let p10 := f ((y + h / 2) % h) x
      let p11 := f ((y + h / 2) % h) ((x + w / 2) % w)
      let top := (1 - (wx : ℝ)) * p00 + (wx : ℝ) * p01
      let bot := (1 - (wx : ℝ)) * p10 + (wx : ℝ) * p11
      (1 - (wy : ℝ)) * top + (wy : ℝ) * bot

/-- Remap the observed `[min, max]` of the field to `[0, 1]`, skipped when
`max - min <= 1e-10` (the degenerate pass-through of `_perlin`/`_fbm`). -/
noncomputable def normalizeField (f : ℕ → ℕ → ℝ) (h w : ℕ) : ℕ → ℕ → ℝ :=
  let mn := gridMin f h w
  let mx := gridMax f h w
  if mx - mn > 1e-10 then fun y x => (f y x - mn) / (mx - mn) else f

/-- Divide by the observed max (`noise_map / (max_val + 1e-10)`), skipped
when `max_val <= 1e-10` (the guard of `_turbulence`/`_ridged`). -/
noncomputable def maxNormalize (f : ℕ → ℕ → ℝ) (h w : ℕ) : ℕ → ℕ → ℝ :=
  let mx := gridMax f h w
  if mx > 1e-10 then fun y x => f y x / (mx + 1e-10) else f

/-- Raw field of `NoiseGenerator._perlin` before normalization. -/
noncomputable def perlinRaw (pr : NoisePrims) (p : NoiseParams) : ℕ → ℕ → ℝ :=
  fun y x =>
    pr.pnoise3 ((x + p.xOffset * p.sensitivity) / p.scale)
      ((y + p.yOffset * p.sensitivity) / p.scale)
      (p.zOffset * p.sensitivity / p.scale)
      (min p.octaves 10) p.persistence p.lacunarity (p.seed % 256)

/-- `NoiseGenerator._perlin`. -/
noncomputable def perlinGen (pr : NoisePrims) (w h : ℕ) (p : NoiseParams)
    (seamless : Bool) (blendWidth : ℚ) : ℕ → ℕ → ℝ :=
  let result := normalizeField (perlinRaw pr p) h w
  if seamless then make_seamless_blend result h w blendWidth else result

/-- `NoiseGenerator._simplex`: raw simplex remapped by `(v + 1) * 0.5`. -/
noncomputable def simplexGen (pr : NoisePrims) (w h : ℕ) (p : NoiseParams)
    (seamless : Bool) (blendWidth : ℚ) : ℕ → ℕ → ℝ :=
  let result : ℕ → ℕ → ℝ := fun y x =>
    (pr.osim3 (p.seed % 256) ((x + p.xOffset * p.sensitivity) / p.scale)
        ((y + p.yOffset * p.sensitivity) / p.scale)
        (p.zOffset * p.sensitivity / p.scale) + 1) * 0.5
  if seamless then make_seamless_blend result h w blendWidth else result

/-- Raw field of `NoiseGenerator._fbm` before normalization. -/
noncomputable def fbmRaw (pr : NoisePrims) (p : NoiseParams) : ℕ → ℕ → ℝ :=
  fun y x =>
    pr.pnl3 (min p.octaves 10) (p.seed % 256)
      ((x + p.xOffset * p.sensitivity) / p.scale)
      ((y + p.yOffset * p.sensitivity) / p.scale)
      (p.zOffset * p.sensitivity / p.scale)

/-- `NoiseGenerator._fbm`. -/
noncomputable def fbmGen (pr : NoisePrims) (w h : ℕ) (p : NoiseParams)
    (seamless : Bool) (blendWidth : ℚ) : ℕ → ℕ → ℝ :=
  let result := normalizeField (fbmRaw pr p) h w
  if seamless then make_seamless_blend result h w blendWidth else result

/-- Raw field of `NoiseGenerator._turbulence`: `abs(noise) ** power`
(`**` on a nonnegative float base is `Real.rpow`). -/
noncomputable def turbulenceRaw (pr : NoisePrims) (p : NoiseParams) : ℕ → ℕ → ℝ :=
  fun y x =>
    |pr.osim3 (p.seed % 256) ((x + p.xOffset * p.sensitivity) / p.scale)
        ((y + p.yOffset * p.sensitivity) / p.scale)
        (p.zOffset * p.sensitivity / p.scale)| ^ p.power

/-- `NoiseGenerator._turbulence`. -/
noncomputable def turbulenceGen (pr : NoisePrims) (w h : ℕ) (p : NoiseParams)
    (seamless : Bool) (blendWidth : ℚ) : ℕ → ℕ → ℝ :=
  let result := maxNormalize (turbulenceRaw pr p) h w
  if seamless then make_seamless_blend result h w blendWidth else result

/-- Raw field of `NoiseGenerator._ridged`: the octave loop unrolled,
amplitude `0.5 ** k` and frequency `2 ** k` at step `k`, each signal
`1 - abs(noise)` squared before accumulation. -/
noncomputable def ridgedRaw (pr : NoisePrims) (p : NoiseParams) : ℕ → ℕ → ℝ :=
  fun y x =>
    ∑ k ∈ Finset.range (min p.octaves 10),
      (1 - |pr.osim3 (p.seed % 256)
          ((x + p.xOffset * p.sensitivity) / p.scale * 2 ^ k)
          ((y + p.yOffset * p.sensitivity) / p.scale * 2 ^ k)
          (p.zOffset * p.sensitivity / p.scale * 2 ^ k)|) ^ 2 * (1 / 2 : ℝ) ^ k

/-- `NoiseGenerator._ridged`. -/
noncomputable def ridgedGen (pr : NoisePrims) (w h : ℕ) (p : NoiseParams)
    (seamless : Bool) (blendWidth : ℚ) : ℕ → ℕ → ℝ :=
  let result := maxNormalize (ridgedRaw pr p) h w
  if seamless then make_seamless_blend result h w blendWidth else result

/-- Raw field of `NoiseGenerator._domain_warp`: two warp offsets from a
second-seeded simplex (`seed + 1`, the second at `+5.2, +1.3`), then the
base simplex sampled at the displaced coordinate. -/
noncomputable def domainWarpRaw (pr : NoisePrims) (p : NoiseParams) : ℕ → ℕ → ℝ :=
  fun y x =>
    let seed := p.seed % 256
    let nx := (x + p.xOffset * p.sensitivity) / p.scale
    let ny := (y + p.yOffset * p.sensitivity) / p.scale
    let nz := p.zOffset * p.sensitivity / p.scale
    let wx := pr.osim3 (seed + 1) nx ny nz * p.warp
    let wy := pr.osim3 (seed + 1) (nx + 5.2) (ny + 1.3) nz * p.warp
    pr.osim3 seed ((x + wx) / p.scale) ((y + wy) / p.scale) nz

/-- `NoiseGenerator._domain_warp`. -/
noncomputable def domainWarpGen (pr : NoisePrims) (w h : ℕ) (p : NoiseParams)
    (seamless : Bool) (blendWidth : ℚ) : ℕ → ℕ → ℝ :=
  let result := fun y x => (domainWarpRaw pr p y x + 1) * 0.5
  if seamless then make_seamless_blend result h w blendWidth else result

/-- `NoiseGenerator.generate`: dispatch on the noise-type string, all-zero
fallback, then `invert` applied to the result. -/
noncomputable def generate (pr : NoisePrims) (noiseType : String) (w h : ℕ) (p : NoiseParams)
    (seamless : Bool) (blendWidth : ℚ) : ℕ → ℕ → ℝ :=
  let result :=
    if noiseType = "Perlin" then perlinGen pr w h p seamless blendWidth
    else if noiseType = "Simplex" then simplexGen pr w h p seamless blendWidth
    else if noiseType = "FBM" then fbmGen pr w h p seamless blendWidth
    else if noiseType = "Turbulence" then turbulenceGen pr w h p seamless blendWidth
    else if noiseType = "Ridged" then ridgedGen pr w h p seamless blendWidth
    else if noiseType = "Domain Warp" then domainWarpGen pr w h p seamless blendWidth
    else fun _ _ => 0
  if p.invert then fun y x => 1 - result y x else result

/-- `NoiseWorker.blend_noise`: the per-pixel blend-operator table. -/
noncomputable def blend_noise (a b : ℕ → ℕ → ℝ) (weight : ℝ) (mode : String) : ℕ → ℕ → ℝ :=
  if mode = "Mix" then fun y x => a y x * (1 - weight) + b y x * weight
  else if mode = "Add" then fun y x => min (max (a y x + b y x * weight) 0) 1
  else if mode = "Multiply" then fun y x => a y x * (b y x * weight + (1 - weight))
  else if mode = "Screen" then fun y x => 1 - (1 - a y x) * (1 - b y x * weight)
  else if mode = "Overlay" then fun y x =>
    let r := if a y x < 0.5 then 2 * a y x * b y x
      else 1 - 2 * (1 - a y x) * (1 - b y x)
    a y x * (1 - weight) + r * weight
  else if mode = "Min" then fun y x => min (a y x) (b y x * weight + a y x * (1 - weight))
  else if mode = "Max" then fun y x => max (a y x) (b y x * weight + a y x * (1 - weight))
  else a

/-- A trivial instance of the external primitives, used for witnesses. -/
noncomputable def trivPrims : NoisePrims where
  pnoise3 := fun _ _ _ _ _ _ _ => 0
  osim3 := fun _ _ _ _ => 0
  pnl3 := fun _ _ _ _ _ => 0

/-- An instance of the external primitives whose Perlin primitive is the
constant `-1/2` (a legitimate `[-1, 1]`-bounded primitive), used to
exhibit the degenerate-normalization pass-through. -/
noncomputable def constNegPrims : NoisePrims where
  pnoise3 := fun _ _ _ _ _ _ _ => -(1 / 2)
  osim3 := fun _ _ _ _ => 0
  pnl3 := fun _ _ _ _ _ => 0

/-- A default parameter bag (the GUI's `params_a` defaults). -/
noncomputable def defaultParams : NoiseParams where
  scale := 100
  octaves := 6
  persistence := 0.5
  lacunarity := 2
  seed := 42
  power := 2
  warp := 50
  xOffset := 0
  yOffset := 0
  zOffset := 0
  sensitivity := 1
  invert := false

/-- C9: `blend_noise` with mode `Mix` at weight `0` returns the first
field exactly, and at weight `1` the second field exactly. -/
theorem blend_mix_identity (a b : ℕ → ℕ → ℝ) :
    blend_noise a b 0 "Mix" = a ∧ blend_noise a b 1 "Mix" = b := by
  constructor <;> funext y x <;> simp [blend_noise]

/-- C10: for every noise type, dimensions and parameter bag, `generate`
with seed `s + 256` returns the same field as with seed `s`: every
generator reduces the seed modulo 256 before use. -/
theorem generate_seed_mod_256 (pr : NoisePrims) (noiseType : String) (w h : ℕ)
    (p : NoiseParams) (seamless : Bool) (blendWidth : ℚ) :
    generate pr noiseType w h { p with seed := p.seed + 256 } seamless blendWidth =
      generate pr noiseType w h p seamless blendWidth := by
  obtain ⟨sc, oc, pe, la, se, po, wa, xo, yo, zo, sen, inv⟩ := p
  have hmod : (se + 256) % 256 = se % 256 := by omega
  unfold generate perlinGen simplexGen fbmGen turbulenceGen ridgedGen domainWarpGen
  unfold perlinRaw fbmRaw turbulenceRaw ridgedRaw domainWarpRaw
  simp only [hmod]

/-- Every in-grid value is at most the grid maximum. -/
theorem le_gridMax (f : ℕ → ℕ → ℝ) (h w y x : ℕ) (hy : y < h) (hx : x < w) :
    f y x ≤ gridMax f h w := by
  unfold gridMax
  exact (Finset.le_fold_max _).2 (Or.inr ⟨(y, x), by simp [Finset.mem_product, hy, hx], le_rfl⟩)

/-- Every in-grid value is at least the grid minimum. -/
theorem gridMin_le (f : ℕ → ℕ → ℝ) (h w y x : ℕ) (hy : y < h) (hx : x < w) :
    gridMin f h w ≤ f y x := by
  unfold gridMin
  exact (Finset.fold_min_le _).2 (Or.inr ⟨(y, x), by simp [Finset.mem_product, hy, hx], le_rfl⟩)

/-- A convex combination of two values of `[0, 1]` stays in `[0, 1]`. -/
theorem convex01 {t a b : ℝ} (ht0 : 0 ≤ t) (ht1 : t ≤ 1)
    (ha : 0 ≤ a ∧ a ≤ 1) (hb : 0 ≤ b ∧ b ≤ 1) :
    0 ≤ (1 - t) * a + t * b ∧ (1 - t) * a + t * b ≤ 1 := by
  obtain ⟨ha0, ha1⟩ := ha
  obtain ⟨hb0, hb1⟩ := hb
  constructor <;> nlinarith

/-- Outside both edge bands on an axis the blend weight vanishes. -/
theorem edgeWeight_eq_zero (extent : ℕ) (b : ℤ) (i : ℕ)
    (h1 : b ≤ (i : ℤ)) (h2 : b ≤ (extent : ℤ) - 1 - i) :
    edgeWeight extent b i = 0 := by
  unfold edgeWeight
  rw [if_neg (by omega), if_neg (by omega)]

/-- The blend weight always lies in `[0, 1]` for an in-grid index. -/
theorem edgeWeight_mem (extent : ℕ) (bw : ℚ) (i : ℕ) (hi : i < extent) :
    0 ≤ edgeWeight extent (blendBand extent bw) i ∧
      edgeWeight extent (blendBand extent bw) i ≤ 1 := by
  have hb2 : (2 : ℤ) ≤ blendBand extent bw := le_max_left _ _
  set b := blendBand extent bw with hbdef
  have hb0 : (0 : ℚ) < (b : ℚ) := by exact_mod_cast (by omega : (0 : ℤ) < b)
  unfold edgeWeight
  split_ifs with h1 h2
  · have hle : (i : ℚ) ≤ (b : ℚ) := by exact_mod_cast (by omega : (i : ℤ) ≤ b)
    have hq1 : (i : ℚ) / (b : ℚ) ≤ 1 := by rw [div_le_one hb0]; exact hle
    have hq0 : 0 ≤ (i : ℚ) / (b : ℚ) := div_nonneg (by positivity) hb0.le
    constructor <;> linarith
  · have hz1 : ((extent : ℤ) - 1 - i : ℤ) ≤ b := by omega
    have hz0 : (0 : ℤ) ≤ (extent : ℤ) - 1 - i := by omega
    have hnum1 : (extent : ℚ) - 1 - i ≤ (b : ℚ) := by exact_mod_cast hz1
    have hnum0 : (0 : ℚ) ≤ (extent : ℚ) - 1 - i := by exact_mod_cast hz0
    have hq1 : ((extent : ℚ) - 1 - i) / (b : ℚ) ≤ 1 := by rw [div_le_one hb0]; exact hnum1
    have hq0 : 0 ≤ ((extent : ℚ) - 1 - i) / (b : ℚ) := div_nonneg hnum0 hb0.le
    constructor <;> linarith
  · norm_num

/-- C2: the seamless tiler leaves every pixel outside both edge bands
(at distance at least the band thickness from all four edges) exactly at
its original value. -/
theorem seamless_outside_bands_untouched (f : ℕ → ℕ → ℝ) (h w : ℕ) (bw : ℚ) (y x : ℕ)
    (hy1 : blendBand h bw ≤ (y : ℤ)) (hy2 : blendBand h bw ≤ (h : ℤ) - 1 - y)
    (hx1 : blendBand w bw ≤ (x : ℤ)) (hx2 : blendBand w bw ≤ (w : ℤ) - 1 - x) :
    make_seamless_blend f h w bw y x = f y x := by
  have hwy : edgeWeight h (blendBand h bw) y = 0 := edgeWeight_eq_zero _ _ _ hy1 hy2
  have hwx : edgeWeight w (blendBand w bw) x = 0 := edgeWeight_eq_zero _ _ _ hx1 hx2
  simp [make_seamless_blend, hwy, hwx]

/-- Witness for C2 at a concrete inner pixel of an 8×8 grid. -/
theorem seamless_outside_bands_untouched_witness :
    make_seamless_blend (fun y x => (y * 10 + x : ℝ)) 8 8 (1 / 10) 4 4 = 44 := by
  have hband : blendBand 8 (1 / 10) = 2 := by norm_num [blendBand, pyInt]
  have e := seamless_outside_bands_untouched (fun y x => (y * 10 + x : ℝ)) 8 8 (1 / 10) 4 4
    (by rw [hband]; norm_num) (by rw [hband]; norm_num)
    (by rw [hband]; norm_num) (by rw [hband]; norm_num)
  rw [e]; norm_num

/-- The seamless blend keeps all in-grid values inside `[0, 1]` when the
input field is inside `[0, 1]` on the grid. -/
theorem make_seamless_blend_bounds (f : ℕ → ℕ → ℝ) (h w : ℕ) (bw : ℚ)
    (hf : ∀ y < h, ∀ x < w, 0 ≤ f y x ∧ f y x ≤ 1) :
    ∀ y < h, ∀ x < w,
      0 ≤ make_seamless_blend f h w bw y x ∧ make_seamless_blend f h w bw y x ≤ 1 := by
  intro y hy x hx
  have hww : 0 < w := lt_of_le_of_lt (Nat.zero_le x) hx
  have hhh : 0 < h := lt_of_le_of_lt (Nat.zero_le y) hy
  have hwy := edgeWeight_mem h bw y hy
  have hwx := edgeWeight_mem w bw x hx
  have hwyR : 0 ≤ (edgeWeight h (blendBand h bw) y : ℝ) ∧
      (edgeWeight h (blendBand h bw) y : ℝ) ≤ 1 := by
    constructor
    · exact_mod_cast hwy.1
    · exact_mod_cast hwy.2
  have hwxR : 0 ≤ (edgeWeight w (blendBand w bw) x : ℝ) ∧
      (edgeWeight w (blendBand w bw) x : ℝ) ≤ 1 := by
    constructor
    · exact_mod_cast hwx.1
    · exact_mod_cast hwx.2
  have h00 := hf y hy x hx
  have h01 := hf y hy ((x + w / 2) % w) (Nat.mod_lt _ hww)
  have h10 := hf ((y + h / 2) % h) (Nat.mod_lt _ hhh) x hx
  have h11 := hf ((y + h / 2) % h) (Nat.mod_lt _ hhh) ((x + w / 2) % w) (Nat.mod_lt _ hww)
  simp only [make_seamless_blend]
  split_ifs with hc
  · exact h00
  · have t1 := convex01 hwxR.1 hwxR.2 h00 h01
    have t2 := convex01 hwxR.1 hwxR.2 h10 h11
    exact convex01 hwyR.1 hwyR.2 t1 t2

/-- When normalization applies (dynamic range above `1e-10`), all in-grid
values of the normalized field lie in `[0, 1]`. -/
theorem normalizeField_bounds (f : ℕ → ℕ → ℝ) (h w y x : ℕ) (hy : y < h) (hx : x < w)
    (hd : gridMax f h w - gridMin f h w > 1e-10) :
    0 ≤ normalizeField f h w y x ∧ normalizeField f h w y x ≤ 1 := by
  have hmin := gridMin_le f h w y x hy hx
  have hmax := le_gridMax f h w y x hy hx
  have hpos : (0 : ℝ) < gridMax f h w - gridMin f h w := by
    have : (0 : ℝ) < 1e-10 := by norm_num
    linarith
  simp only [normalizeField, if_pos hd]
  constructor
  · exact div_nonneg (by linarith) hpos.le
  · rw [div_le_one hpos]; linarith

/-- When the raw field is nonnegative on the grid, the division by
`max + 1e-10` (resp. the degenerate pass-through) keeps all in-grid
values in `[0, 1]`. -/
theorem maxNormalize_bounds (f : ℕ → ℕ → ℝ) (h w : ℕ)
    (hf : ∀ y < h, ∀ x < w, 0 ≤ f y x) :
    ∀ y < h, ∀ x < w, 0 ≤ maxNormalize f h w y x ∧ maxNormalize f h w y x ≤ 1 := by
  intro y hy x hx
  have h0 := hf y hy x hx
  have hmax := le_gridMax f h w y x hy hx
  simp only [maxNormalize]
  split_ifs with hc
  · have hpos : (0 : ℝ) < gridMax f h w + 1e-10 := by
      have : (0 : ℝ) < 1e-10 := by norm_num
      linarith
    constructor
    · exact div_nonneg h0 hpos.le
    · rw [div_le_one hpos]; linarith
  · push_neg at hc
    have : (1e-10 : ℝ) ≤ 1 := by norm_num
    exact ⟨h0, by linarith⟩

/-- Bounds pass through the optional seamless-blend step of each
generator. -/
theorem seamWrap_bounds (r : ℕ → ℕ → ℝ) (h w : ℕ) (bw : ℚ) (seamless : Bool)
    (hr : ∀ y < h, ∀ x < w, 0 ≤ r y x ∧ r y x ≤ 1) :
    ∀ y < h, ∀ x < w,
      0 ≤ (if seamless then make_seamless_blend r h w bw else r) y x ∧
        (if seamless then make_seamless_blend r h w bw else r) y x ≤ 1 := by
  cases seamless
  · simpa using hr
  · simpa using make_seamless_blend_bounds r h w bw hr

/-- Bounds pass through the final `invert` step of `generate`. -/
theorem invertWrap_bounds (r : ℕ → ℕ → ℝ) (inv : Bool) (y x : ℕ)
    (hr : 0 ≤ r y x ∧ r y x ≤ 1) :
    0 ≤ (if inv then fun y' x' => 1 - r y' x' else r) y x ∧
      (if inv then fun y' x' => 1 - r y' x' else r) y x ≤ 1 := by
  cases inv
  · simpa using hr
  · simp only [if_pos]
    constructor <;> simp <;> linarith [hr.1, hr.2]

/-- In-grid bounds for `_simplex`. -/
theorem simplexGen_bounds (pr : NoisePrims) (hb : OsimBounded pr) (w h : ℕ)
    (p : NoiseParams) (seamless : Bool) (bw : ℚ) :
    ∀ y < h, ∀ x < w,
      0 ≤ simplexGen pr w h p seamless bw y x ∧ simplexGen pr w h p seamless bw y x ≤ 1 := by
  simp only [simplexGen]
  apply seamWrap_bounds
  intro y _ x _
  have hv := hb (p.seed % 256) ((x + p.xOffset * p.sensitivity) / p.scale)
    ((y + p.yOffset * p.sensitivity) / p.scale) (p.zOffset * p.sensitivity / p.scale)
  constructor <;> nlinarith [hv.1, hv.2]

/-- In-grid bounds for `_domain_warp`. -/
theorem domainWarpGen_bounds (pr : NoisePrims) (hb : OsimBounded pr) (w h : ℕ)
    (p : NoiseParams) (seamless : Bool) (bw : ℚ) :
    ∀ y < h, ∀ x < w,
      0 ≤ domainWarpGen pr w h p seamless bw y x ∧
        domainWarpGen pr w h p seamless bw y x ≤ 1 := by
  simp only [domainWarpGen]
  apply seamWrap_bounds
  intro y _ x _
  have hv2 : -1 ≤ domainWarpRaw pr p y x ∧ domainWarpRaw pr p y x ≤ 1 := by
    unfold domainWarpRaw; exact hb _ _ _ _
  constructor <;> nlinarith [hv2.1, hv2.2]

/-- In-grid bounds for `_turbulence`. -/
theorem turbulenceGen_bounds (pr : NoisePrims) (w h : ℕ)
    (p : NoiseParams) (seamless : Bool) (bw : ℚ) :
    ∀ y < h, ∀ x < w,
      0 ≤ turbulenceGen pr w h p seamless bw y x ∧
        turbulenceGen pr w h p seamless bw y x ≤ 1 := by
  simp only [turbulenceGen]
  apply seamWrap_bounds
  apply maxNormalize_bounds
  intro y _ x _
  exact Real.rpow_nonneg (abs_nonneg _) _

/-- In-grid bounds for `_ridged`. -/
theorem ridgedGen_bounds (pr : NoisePrims) (w h : ℕ)
    (p : NoiseParams) (seamless : Bool) (bw : ℚ) :
    ∀ y < h, ∀ x < w,
      0 ≤ ridgedGen pr w h p seamless bw y x ∧ ridgedGen pr w h p seamless bw y x ≤ 1 := by
  simp only [ridgedGen]
  apply seamWrap_bounds
  apply maxNormalize_bounds
  intro y _ x _
  simp only [ridgedRaw]
  apply Finset.sum_nonneg
  intro k _
  positivity

/-- In-grid bounds for `_perlin` when normalization applies. -/
theorem perlinGen_bounds (pr : NoisePrims) (w h : ℕ)
    (p : NoiseParams) (seamless : Bool) (bw : ℚ)
    (hd : gridMax (perlinRaw pr p) h w - gridMin (perlinRaw pr p) h w > 1e-10) :
    ∀ y < h, ∀ x < w,
      0 ≤ perlinGen pr w h p seamless bw y x ∧ perlinGen pr w h p seamless bw y x ≤ 1 := by
  simp only [perlinGen]
  apply seamWrap_bounds
  intro y hy x hx
  exact normalizeField_bounds _ h w y x hy hx hd

/-- In-grid bounds for `_fbm` when normalization applies. -/
theorem fbmGen_bounds (pr : NoisePrims) (w h : ℕ)
    (p : NoiseParams) (seamless : Bool) (bw : ℚ)
    (hd : gridMax (fbmRaw pr p) h w - gridMin (fbmRaw pr p) h w > 1e-10) :
    ∀ y < h, ∀ x < w,
      0 ≤ fbmGen pr w h p seamless bw y x ∧ fbmGen pr w h p seamless bw y x ≤ 1 := by
  simp only [fbmGen]
  apply seamWrap_bounds
  intro y hy x hx
  exact normalizeField_bounds _ h w y x hy hx hd

/-- C1 (amended): given the spec's `[-1, 1]` contract for the simplex
primitive, every in-grid pixel of `generate` lies in `[0, 1]` — for
Simplex, Turbulence, Ridged and Domain Warp unconditionally, and for
Perlin and FBM whenever the raw field's dynamic range exceeds `1e-10`
(i.e. whenever the min–max normalization is actually applied).  This
covers `invert` and seamless blending. -/
theorem generate_bounds (pr : NoisePrims) (hb : OsimBounded pr) (w h : ℕ) (p : NoiseParams)
    (_hw : 1 ≤ w) (_hh : 1 ≤ h) (_hscale : 0 < p.scale) (seamless : Bool) (bw : ℚ)
    (y x : ℕ) (hy : y < h) (hx : x < w) :
    (∀ nt ∈ (["Simplex", "Turbulence", "Ridged", "Domain Warp"] : List String),
        0 ≤ generate pr nt w h p seamless bw y x ∧ generate pr nt w h p seamless bw y x ≤ 1) ∧
    (gridMax (perlinRaw pr p) h w - gridMin (perlinRaw pr p) h w > 1e-10 →
        0 ≤ generate pr "Perlin" w h p seamless bw y x ∧
          generate pr "Perlin" w h p seamless bw y x ≤ 1) ∧
    (gridMax (fbmRaw pr p) h w - gridMin (fbmRaw pr p) h w > 1e-10 →
        0 ≤ generate pr "FBM" w h p seamless bw y x ∧
          generate pr "FBM" w h p seamless bw y x ≤ 1) := by
  refine ⟨?_, ?_, ?_⟩
  · intro nt hnt
    simp only [List.mem_cons, List.not_mem_nil, or_false] at hnt
    rcases hnt with rfl | rfl | rfl | rfl
    · have e : generate pr "Simplex" w h p seamless bw =
          (if p.invert then fun y' x' => 1 - simplexGen pr w h p seamless bw y' x'
            else simplexGen pr w h p seamless bw) := by
        simp [generate]
      rw [e]
      exact invertWrap_bounds _ _ y x (simplexGen_bounds pr hb w h p seamless bw y hy x hx)
    · have e : generate pr "Turbulence" w h p seamless bw =
          (if p.invert then fun y' x' => 1 - turbulenceGen pr w h p seamless bw y' x'
            else turbulenceGen pr w h p seamless bw) := by
        simp [generate]
      rw [e]
      exact invertWrap_bounds _ _ y x (turbulenceGen_bounds pr w h p seamless bw y hy x hx)
    · have e : generate pr "Ridged" w h p seamless bw =
          (if p.invert then fun y' x' => 1 - ridgedGen pr w h p seamless bw y' x'
            else ridgedGen pr w h p seamless bw) := by
        simp [generate]
      rw [e]
      exact invertWrap_bounds _ _ y x (ridgedGen_bounds pr w h p seamless bw y hy x hx)
    · have e : generate pr "Domain Warp" w h p seamless bw =
          (if p.invert then fun y' x' => 1 - domainWarpGen pr w h p seamless bw y' x'
            else domainWarpGen pr w h p seamless bw) := by
        simp [generate]
      rw [e]
      exact invertWrap_bounds _ _ y x (domainWarpGen_bounds pr hb w h p seamless bw y hy x hx)
  · intro hd
    have e : generate pr "Perlin" w h p seamless bw =
        (if p.invert then fun y' x' => 1 - perlinGen pr w h p seamless bw y' x'
          else perlinGen pr w h p seamless bw) := by
      simp [generate]
    rw [e]
    exact invertWrap_bounds _ _ y x (perlinGen_bounds pr w h p seamless bw hd y hy x hx)
  · intro hd
    have e : generate pr "FBM" w h p seamless bw =
        (if p.invert then fun y' x' => 1 - fbmGen pr w h p seamless bw y' x'
          else fbmGen pr w h p seamless bw) := by
      simp [generate]
    rw [e]
    exact invertWrap_bounds _ _ y x (fbmGen_bounds pr w h p seamless bw hd y hy x hx)

/-- Witness for C1 at a concrete bounded primitive and parameter bag. -/
theorem generate_bounds_witness :
    0 ≤ generate trivPrims "Simplex" 2 2 defaultParams false (1 / 10) 0 0 ∧
      generate trivPrims "Simplex" 2 2 defaultParams false (1 / 10) 0 0 ≤ 1 := by
  have hb : OsimBounded trivPrims := by
    intro s x y z
    norm_num [trivPrims]
  exact (generate_bounds trivPrims hb 2 2 defaultParams (by norm_num) (by norm_num)
      (by norm_num [defaultParams]) false (1 / 10) 0 0 (by norm_num) (by norm_num)).1
    "Simplex" (by norm_num)

/-- Counterexample to C1 as stated: with the `[-1, 1]`-bounded primitive
that is constantly `-1/2`, a 1×1 Perlin field is degenerate
(`max - min = 0`), normalization is skipped, and the returned pixel value
is `-1/2`, outside `[0, 1]`. -/
theorem generate_degenerate_out_of_range :
    generate constNegPrims "Perlin" 1 1 defaultParams false (1 / 10) 0 0 = -(1 / 2) ∧
      ¬ (0 ≤ generate constNegPrims "Perlin" 1 1 defaultParams false (1 / 10) 0 0) := by
  have hmax : gridMax (perlinRaw constNegPrims defaultParams) 1 1 =
      perlinRaw constNegPrims defaultParams 0 0 := by
    unfold gridMax
    rw [Finset.range_one, Finset.singleton_product_singleton, Finset.fold_singleton]
    exact max_self _
  have hmin : gridMin (perlinRaw constNegPrims defaultParams) 1 1 =
      perlinRaw constNegPrims defaultParams 0 0 := by
    unfold gridMin
    rw [Finset.range_one, Finset.singleton_product_singleton, Finset.fold_singleton]
    exact min_self _
  have hnorm : normalizeField (perlinRaw constNegPrims defaultParams) 1 1 =
      perlinRaw constNegPrims defaultParams := by
    unfold normalizeField
    rw [if_neg]
    rw [hmax, hmin]
    norm_num
  have e : generate constNegPrims "Perlin" 1 1 defaultParams false (1 / 10) 0 0 = -(1 / 2) := by
    have e1 : generate constNegPrims "Perlin" 1 1 defaultParams false (1 / 10) =
        perlinGen constNegPrims 1 1 defaultParams false (1 / 10) := by
      simp [generate, defaultParams]
    rw [e1]
    simp only [perlinGen, Bool.false_eq_true, if_false, hnorm]
    simp [perlinRaw, constNegPrims]
  refine ⟨e, ?_⟩
  rw [e]
  norm_num

/-- C3 (amended): an unrecognized noise type falls through to the
all-zero field, after which `generate` still applies `invert`; so the
result is all zeros when `invert` is unset and all ones when it is set —
in neither case an error. -/
theorem generate_unknown_type (pr : NoisePrims) (w h : ℕ) (p : NoiseParams)
    (seamless : Bool) (bw : ℚ) (nt : String)
    (hnt : nt ∉ (["Perlin", "Simplex", "FBM", "Turbulence", "Ridged",
      "Domain Warp"] : List String)) :
    ∀ y x, generate pr nt w h p seamless bw y x = if p.invert then 1 else 0 := by
  intro y x
  simp only [List.mem_cons, List.not_mem_nil, or_false, not_or] at hnt
  obtain ⟨h1, h2, h3, h4, h5, h6⟩ := hnt
  cases hinv : p.invert <;>
    simp [generate, h1, h2, h3, h4, h5, h6, hinv]

/-- Witness for C3 at a concrete unknown type name. -/
theorem generate_unknown_type_witness :
    generate trivPrims "Voronoi" 2 2 defaultParams false (1 / 10) 0 0 = 0 := by
  have e := generate_unknown_type trivPrims 2 2 defaultParams false (1 / 10) "Voronoi"
    (by decide) 0 0
  simpa [defaultParams] using e

/-- Counterexample to C3 as stated: with `invert` set in the parameter
bag, an unknown noise type yields the all-ones field (the inverted zero
field), not the all-zero field. -/
theorem generate_unknown_type_inverted_not_zero :
    generate trivPrims "Voronoi" 2 2 { defaultParams with invert := true } false (1 / 10) 0 0
        = 1 ∧ (1 : ℝ) ≠ 0 := by
  constructor
  · simp [generate, defaultParams]
  · norm_num

/-- Parameter bag for one sprite (`params` dict of `SpriteGenerator`). -/
structure SpriteParams where
  radius : ℝ
  size : ℝ
  thickness : ℝ
  softness : ℝ
  rotation : ℝ
  angle : ℝ
  length : ℝ
  length_falloff : Bool
  sides : ℕ
  points : ℕ
  rays : ℕ
  outer_radius : ℝ
  inner_radius : ℝ
  gradient : Bool
  intensity : ℝ
  falloff : ℝ
  blur : ℝ
  color_r : ℤ
  color_g : ℤ
  color_b : ℤ
  alpha : ℝ

/-- `np.radians`: degrees to radians. -/
noncomputable def npRadians (deg : ℝ) : ℝ :=
  deg * Real.pi / 180

/-- An IEEE float outcome: a finite value, `±inf`, or `nan`.  Used to
model the numpy expressions of `_ring`/`_cross`/`_sparkle` that divide
by `softness` without guarding against zero. -/
inductive EFloat where
  | fin : ℝ → EFloat
  | pinf : EFloat
  | ninf : EFloat
  | nan : EFloat

/-- IEEE division of finite floats: division by zero gives `±inf`, and
`0/0` gives `nan`; otherwise the exact quotient. -/
noncomputable def fdiv (a b : ℝ) : EFloat :=
  if b = 0 then
    if a = 0 then EFloat.nan else if 0 < a then EFloat.pinf else EFloat.ninf
  else EFloat.fin (a / b)

/-- IEEE evaluation of `1.0 - x`. -/
def oneSub : EFloat → EFloat
  | EFloat.fin q => EFloat.fin (1 - q)
  | EFloat.pinf => EFloat.ninf
  | EFloat.ninf => EFloat.pinf
  | EFloat.nan => EFloat.nan

/-- `np.clip(x, 0, 1)`: clamps finite values and infinities; `nan`
passes through. -/
noncomputable def clip01 : EFloat → EFloat
  | EFloat.fin q => EFloat.fin (max 0 (min q 1))
  | EFloat.pinf => EFloat.fin 1
  | EFloat.ninf => EFloat.fin 0
  | EFloat.nan => EFloat.nan

/-- `np.maximum`: propagates `nan`, otherwise the larger value. -/
noncomputable def fmax : EFloat → EFloat → EFloat
  | EFloat.nan, _ => EFloat.nan
  | _, EFloat.nan => EFloat.nan
  | EFloat.fin a, EFloat.fin b => EFloat.fin (max a b)
  | EFloat.pinf, _ => EFloat.pinf
  | _, EFloat.pinf => EFloat.pinf
  | EFloat.ninf, q => q
  | q, EFloat.ninf => q

/-- The claim's per-pixel soft-edge falloff:
`clamp(1 - (distance - extent)/softness, 0, 1)` when `softness > 0`,
else the hard step `distance <= extent`. -/
noncomputable def claimFalloff (dist extent softness : ℝ) : ℝ :=
  if 0 < softness then max 0 (min (1 - (dist - extent) / softness) 1)
  else if dist ≤ extent then 1 else 0

/-- Euclidean center distance of `SpriteGenerator._circle` at pixel
`(y, x)` of a `w × h` sprite. -/
noncomputable def circleDist (w h : ℕ) (y x : ℕ) : ℝ :=
  Real.sqrt ((x - (w : ℝ) / 2) ^ 2 + (y - (h : ℝ) / 2) ^ 2)

/-- Scalar intensity of `SpriteGenerator._circle` (the source guards the
division: soft falloff only when `softness > 0`, else a hard step; the
optional gradient multiplies by `1 - clip(dist/radius, 0, 1)`). -/
noncomputable def circleIntensity (w h : ℕ) (p : SpriteParams) (y x : ℕ) : ℝ :=
  let radius := p.radius * ((min w h : ℕ) : ℝ) / 2
  let softness := p.softness * ((min w h : ℕ) : ℝ) / 2
  let dist := circleDist w h y x
  let base := if 0 < softness then max 0 (min (1 - (dist - radius) / softness) 1)
    else if dist ≤ radius then 1 else 0
  if p.gradient then base * (1 - max 0 (min (dist / radius) 1)) else base

/-- Rotated horizontal-bar distance `abs(y_rot)` of
`SpriteGenerator._cross` (the source skips the rotation matrix when
`rotation == 0`). -/
noncomputable def crossDistH (w h : ℕ) (p : SpriteParams) (y x : ℕ) : ℝ :=
  let rot := npRadians p.rotation
  let dx := (x : ℝ) - (w : ℝ) / 2
  let dy := (y : ℝ) - (h : ℝ) / 2
  if rot ≠ 0 then |dx * Real.sin rot + dy * Real.cos rot| else |dy|

/-- Rotated vertical-bar distance `abs(x_rot)` of `SpriteGenerator._cross`. -/
noncomputable def crossDistV (w h : ℕ) (p : SpriteParams) (y x : ℕ) : ℝ :=
  let rot := npRadians p.rotation
  let dx := (x : ℝ) - (w : ℝ) / 2
  let dy := (y : ℝ) - (h : ℝ) / 2
  if rot ≠ 0 then |dx * Real.cos rot - dy * Real.sin rot| else |dx|

/-- Scalar intensity of `SpriteGenerator._cross`: each bar is
`np.clip(1 - (dist - thickness/2)/softness, 0, 1)` with an unguarded
division by `softness`, then the two bars are combined with
`np.maximum`.  Evaluated in IEEE semantics (`EFloat`) because the
division can be by zero. -/
noncomputable def crossIntensity (w h : ℕ) (p : SpriteParams) (y x : ℕ) : EFloat :=
  let thickness := p.thickness * ((min w h : ℕ) : ℝ)
  let softness := p.softness * ((min w h : ℕ) : ℝ)
  let ih := clip01 (oneSub (fdiv (crossDistH w h p y x - thickness / 2) softness))
  let iv := clip01 (oneSub (fdiv (crossDistV w h p y x - thickness / 2) softness))
  fmax ih iv

/-- `np.multiply` on IEEE outcomes: `nan` propagates, infinities follow
the sign rules, `inf * 0 = nan`. -/
noncomputable def fmul : EFloat → EFloat → EFloat
  | EFloat.nan, _ => EFloat.nan
  | _, EFloat.nan => EFloat.nan
  | EFloat.fin a, EFloat.fin b => EFloat.fin (a * b)
  | EFloat.pinf, EFloat.pinf => EFloat.pinf
  | EFloat.pinf, EFloat.ninf => EFloat.ninf
  | EFloat.ninf, EFloat.pinf => EFloat.ninf
  | EFloat.ninf, EFloat.ninf => EFloat.pinf
  | EFloat.pinf, EFloat.fin a =>
    if a = 0 then EFloat.nan else if 0 < a then EFloat.pinf else EFloat.ninf
  | EFloat.fin a, EFloat.pinf =>
    if a = 0 then EFloat.nan else if 0 < a then EFloat.pinf else EFloat.ninf
  | EFloat.ninf, EFloat.fin a =>
    if a = 0 then EFloat.nan else if 0 < a then EFloat.ninf else EFloat.pinf
  | EFloat.fin a, EFloat.ninf =>
    if a = 0 then EFloat.nan else if 0 < a then EFloat.ninf else EFloat.pinf

/-- IEEE squaring (`x ** 2`). -/
def fsq : EFloat → EFloat
  | EFloat.fin q => EFloat.fin (q ^ 2)
  | EFloat.pinf => EFloat.pinf
  | EFloat.ninf => EFloat.pinf
  | EFloat.nan => EFloat.nan

/-- IEEE negation. -/
def fneg : EFloat → EFloat
  | EFloat.fin q => EFloat.fin (-q)
  | EFloat.pinf => EFloat.ninf
  | EFloat.ninf => EFloat.pinf
  | EFloat.nan => EFloat.nan

/-- `np.exp` on IEEE outcomes. -/
noncomputable def fexp : EFloat → EFloat
  | EFloat.fin q => EFloat.fin (Real.exp q)
  | EFloat.pinf => EFloat.pinf
  | EFloat.ninf => EFloat.fin 0
  | EFloat.nan => EFloat.nan

/-- Chebyshev-style distance of `SpriteGenerator._square`:
`max(abs(x_rot), abs(y_rot))` in optionally rotated coordinates (the
source skips the rotation matrix when `rotation == 0`). -/
noncomputable def squareDist (w h : ℕ) (p : SpriteParams) (y x : ℕ) : ℝ :=
  let rot := npRadians p.rotation
  let dx := (x : ℝ) - (w : ℝ) / 2
  let dy := (y : ℝ) - (h : ℝ) / 2
  if rot ≠ 0 then
    max |dx * Real.cos rot - dy * Real.sin rot| |dx * Real.sin rot + dy * Real.cos rot|
  else max |dx| |dy|

/-- Scalar intensity of `SpriteGenerator._square` (guarded division,
like `_circle`; optional gradient multiplies by
`1 - clip(max_dist/size, 0, 1)` with the same distance). -/
noncomputable def squareIntensity (w h : ℕ) (p : SpriteParams) (y x : ℕ) : ℝ :=
  let size := p.size * ((min w h : ℕ) : ℝ) / 2
  let softness := p.softness * ((min w h : ℕ) : ℝ) / 2
  let dist := squareDist w h p y x
  let base := if 0 < softness then max 0 (min (1 - (dist - size) / softness) 1)
    else if dist ≤ size then 1 else 0
  if p.gradient then base * (1 - max 0 (min (squareDist w h p y x / size) 1)) else base

/-- Perpendicular distance `abs(y_rot)` of `SpriteGenerator._line` (the
rotation by `angle` is unconditional in the source). -/
noncomputable def lineDistPerp (w h : ℕ) (p : SpriteParams) (y x : ℕ) : ℝ :=
  let ang := npRadians p.angle
  let dx := (x : ℝ) - (w : ℝ) / 2
  let dy := (y : ℝ) - (h : ℝ) / 2
  |dx * Real.sin ang + dy * Real.cos ang|

/-- Along-axis distance `abs(x_rot)` of `SpriteGenerator._line`. -/
noncomputable def lineDistAlong (w h : ℕ) (p : SpriteParams) (y x : ℕ) : ℝ :=
  let ang := npRadians p.angle
  let dx := (x : ℝ) - (w : ℝ) / 2
  let dy := (y : ℝ) - (h : ℝ) / 2
  |dx * Real.cos ang - dy * Real.sin ang|

/-- Scalar intensity of `SpriteGenerator._line`: the perpendicular
falloff is guarded (`softness > 0` clamp, else hard step), but when
`length_falloff` is set (its default) the result is multiplied by
`clip(1 - (dist_along - length/2)/(length*0.1), 0, 1)`, whose division
by `length * 0.1` is unguarded — hence `EFloat`. -/
noncomputable def lineIntensity (w h : ℕ) (p : SpriteParams) (y x : ℕ) : EFloat :=
  let thickness := p.thickness * ((min w h : ℕ) : ℝ)
  let softness := p.softness * ((min w h : ℕ) : ℝ)
  let length := p.length * Real.sqrt ((w : ℝ) ^ 2 + (h : ℝ) ^ 2)
  let perp : ℝ :=
    if 0 < softness then
      max 0 (min (1 - (lineDistPerp w h p y x - thickness / 2) / softness) 1)
    else if lineDistPerp w h p y x ≤ thickness / 2 then 1 else 0
  if p.length_falloff then
    fmul (EFloat.fin perp)
      (clip01 (oneSub (fdiv (lineDistAlong w h p y x - length / 2) (length * 0.1))))
  else EFloat.fin perp

/-- `np.arctan2(y, x)`: the argument of the point `(x, y)`. -/
noncomputable def npArctan2 (yv xv : ℝ) : ℝ :=
  Complex.arg ⟨xv, yv⟩

/-- `np.mod` on floats: `a - b * floor(a / b)`. -/
noncomputable def npMod (a b : ℝ) : ℝ :=
  a - b * ⌊a / b⌋

/-- Signed boundary distance of `SpriteGenerator._ngon`:
`dist_center - radius*(0.8 + 0.2*(cos(angle*sides)*0.5 + 0.5))`.  (The
source's preceding `dist_to_edge` loop is dead code, overwritten by this
"simpler approach".) -/
noncomputable def ngonDist (w h : ℕ) (p : SpriteParams) (y x : ℕ) : ℝ :=
  let radius := p.radius * ((min w h : ℕ) : ℝ) / 2
  let dx := (x : ℝ) - (w : ℝ) / 2
  let dy := (y : ℝ) - (h : ℝ) / 2
  let angle := npArctan2 dy dx + npRadians p.rotation
  let angularMod := Real.cos (angle * p.sides) * 0.5 + 0.5
  circleDist w h y x - radius * (0.8 + 0.2 * angularMod)

/-- Scalar intensity of `SpriteGenerator._ngon`: guarded
`clip(1 - dist/softness, 0, 1)` with hard step `dist <= 0`; optional
gradient multiplies by `1 - clip(dist_center/radius, 0, 1)`. -/
noncomputable def ngonIntensity (w h : ℕ) (p : SpriteParams) (y x : ℕ) : ℝ :=
  let radius := p.radius * ((min w h : ℕ) : ℝ) / 2
  let softness := p.softness * ((min w h : ℕ) : ℝ) / 2
  let dist := ngonDist w h p y x
  let base := if 0 < softness then max 0 (min (1 - dist / softness) 1)
    else if dist ≤ 0 then 1 else 0
  if p.gradient then base * (1 - max 0 (min (circleDist w h y x / radius) 1)) else base

/-- Signed boundary distance of `SpriteGenerator._star`:
`dist_center - (inner + (outer - inner)*(cos(angle_mod*points)*0.5 + 0.5))`
with `angle_mod = mod(angle, 2*pi/points) - pi/points`. -/
noncomputable def starDist (w h : ℕ) (p : SpriteParams) (y x : ℕ) : ℝ :=
  let outer := p.outer_radius * ((min w h : ℕ) : ℝ) / 2
  let inner := p.inner_radius * ((min w h : ℕ) : ℝ) / 2
  let dx := (x : ℝ) - (w : ℝ) / 2
  let dy := (y : ℝ) - (h : ℝ) / 2
  let angle := npArctan2 dy dx + npRadians p.rotation
  let angleStep := 2 * Real.pi / p.points
  let angleMod := npMod angle angleStep - angleStep / 2
  let angleFactor := Real.cos (angleMod * p.points) * 0.5 + 0.5
  circleDist w h y x - (inner + (outer - inner) * angleFactor)

/-- Scalar intensity of `SpriteGenerator._star`: guarded like `_ngon`;
optional gradient multiplies by `1 - clip(dist_center/outer, 0, 1)`. -/
noncomputable def starIntensity (w h : ℕ) (p : SpriteParams) (y x : ℕ) : ℝ :=
  let outer := p.outer_radius * ((min w h : ℕ) : ℝ) / 2
  let softness := p.softness * ((min w h : ℕ) : ℝ) / 2
  let dist := starDist w h p y x
  let base := if 0 < softness then max 0 (min (1 - dist / softness) 1)
    else if dist ≤ 0 then 1 else 0
  if p.gradient then base * (1 - max 0 (min (circleDist w h y x / outer) 1)) else base

/-- Scalar intensity of `SpriteGenerator._ring`:
`outer_mask * inner_mask`, both masks dividing by `softness` without a
guard (hence `EFloat`); the optional gradient divides by `ring_width`,
also unguarded. -/
noncomputable def ringIntensity (w h : ℕ) (p : SpriteParams) (y x : ℕ) : EFloat :=
  let outer := p.outer_radius * ((min w h : ℕ) : ℝ) / 2
  let inner := p.inner_radius * ((min w h : ℕ) : ℝ) / 2
  let softness := p.softness * ((min w h : ℕ) : ℝ) / 2
  let dist := circleDist w h y x
  let outerMask := clip01 (oneSub (fdiv (dist - outer) softness))
  let innerMask := clip01 (fdiv (dist - inner) softness)
  let intensity := fmul outerMask innerMask
  if p.gradient then
    let ringCenter := (outer + inner) / 2
    let ringWidth := (outer - inner) / 2
    fmul intensity (oneSub (clip01 (fdiv |dist - ringCenter| ringWidth)))
  else intensity

/-- Perpendicular distance to ray `i` of `SpriteGenerator._sparkle`
(ray angles `rotation + i*pi/rays`). -/
noncomputable def sparkleRayPerp (w h : ℕ) (p : SpriteParams) (y x i : ℕ) : ℝ :=
  let ang := npRadians p.rotation + i * Real.pi / p.rays
  let dx := (x : ℝ) - (w : ℝ) / 2
  let dy := (y : ℝ) - (h : ℝ) / 2
  |dx * Real.sin ang + dy * Real.cos ang|

/-- Along-ray distance to ray `i` of `SpriteGenerator._sparkle`. -/
noncomputable def sparkleRayAlong (w h : ℕ) (p : SpriteParams) (y x i : ℕ) : ℝ :=
  let ang := npRadians p.rotation + i * Real.pi / p.rays
  let dx := (x : ℝ) - (w : ℝ) / 2
  let dy := (y : ℝ) - (h : ℝ) / 2
  |dx * Real.cos ang - dy * Real.sin ang|

/-- One ray of `SpriteGenerator._sparkle`: the product of a perpendicular
clip dividing by `softness` and an along-ray clip dividing by
`length * 0.2`, both unguarded. -/
noncomputable def sparkleRay (w h : ℕ) (p : SpriteParams) (y x i : ℕ) : EFloat :=
  let thickness := p.thickness * ((min w h : ℕ) : ℝ)
  let softness := p.softness * ((min w h : ℕ) : ℝ)
  let length := p.length * ((min w h : ℕ) : ℝ) / 2
  fmul (clip01 (oneSub (fdiv (sparkleRayPerp w h p y x i - thickness / 2) softness)))
    (clip01 (oneSub (fdiv (sparkleRayAlong w h p y x i - length) (length * 0.2))))

/-- Scalar intensity of `SpriteGenerator._sparkle`: the rays accumulated
with `np.maximum` starting from the zero field, then `np.maximum` with
the center glow `exp(-(dist_center/(thickness*3))**2)` (another
unguarded division). -/
noncomputable def sparkleIntensity (w h : ℕ) (p : SpriteParams) (y x : ℕ) : EFloat :=
  let thickness := p.thickness * ((min w h : ℕ) : ℝ)
  let raysAcc := (List.range p.rays).foldl
    (fun acc i => fmax acc (sparkleRay w h p y x i)) (EFloat.fin 0)
  let centerGlow := fexp (fneg (fsq (fdiv (circleDist w h y x) (thickness * 3))))
  fmax raysAcc centerGlow

/-- `np.maximum` propagates `nan` from the left. -/
theorem fmax_nan_left (e : EFloat) : fmax EFloat.nan e = EFloat.nan := by
  cases e <;> rfl

/-- `np.maximum` propagates `nan` from the right as well. -/
theorem fmax_nan_right (e : EFloat) : fmax e EFloat.nan = EFloat.nan := by
  cases e <;> rfl

/-- `np.multiply` propagates `nan` from the left. -/
theorem fmul_nan_left (e : EFloat) : fmul EFloat.nan e = EFloat.nan := by
  cases e <;> rfl

/-- `np.multiply` propagates `nan` from the right as well. -/
theorem fmul_nan_right (e : EFloat) : fmul e EFloat.nan = EFloat.nan := by
  cases e <;> rfl

/-- Once one term of a `np.maximum` accumulation is `nan`, the whole
accumulated value is `nan`. -/
theorem foldl_fmax_nan (f : ℕ → EFloat) :
    ∀ (l : List ℕ) (acc : EFloat),
      (acc = EFloat.nan ∨ ∃ i ∈ l, f i = EFloat.nan) →
      l.foldl (fun a i => fmax a (f i)) acc = EFloat.nan := by
  intro l
  induction l with
  | nil =>
    intro acc hacc
    rcases hacc with hcase | ⟨i, hi, _⟩
    · simpa using hcase
    · simp at hi
  | cons j t ih =>
    intro acc hacc
    simp only [List.foldl_cons]
    rcases hacc with hcase | ⟨i, hi, hf⟩
    · exact ih _ (Or.inl (by rw [hcase]; exact fmax_nan_left _))
    · rcases List.mem_cons.1 hi with rfl | hit
      · exact ih _ (Or.inl (by rw [hf]; exact fmax_nan_right _))
      · exact ih _ (Or.inr ⟨i, hit, hf⟩)

/-- Off the boundary, the clipped infinities of the unguarded falloff
`clip(1 - (d - e)/0, 0, 1)` reproduce the hard step `d <= e`. -/
theorem clip01_oneSub_fdiv_zero (d e : ℝ) (hne : d ≠ e) :
    clip01 (oneSub (fdiv (d - e) 0)) = EFloat.fin (if d ≤ e then 1 else 0) := by
  have ha : ¬ (d - e = 0) := sub_ne_zero.2 hne
  rcases lt_or_gt_of_ne hne with hlt | hgt
  · have hneg : ¬ (0 < d - e) := by linarith
    have hdiv : fdiv (d - e) 0 = EFloat.ninf := by
      unfold fdiv; rw [if_pos rfl, if_neg ha, if_neg hneg]
    rw [hdiv]
    simp only [oneSub, clip01]
    rw [if_pos (le_of_lt hlt)]
  · have hpos : 0 < d - e := by linarith
    have hdiv : fdiv (d - e) 0 = EFloat.pinf := by
      unfold fdiv; rw [if_pos rfl, if_neg ha, if_pos hpos]
    rw [hdiv]
    simp only [oneSub, clip01]
    rw [if_neg (by linarith : ¬ d ≤ e)]

/-- Off the boundary, the clipped infinities of the unguarded inner mask
`clip((d - e)/0, 0, 1)` reproduce the hard step `e <= d`. -/
theorem clip01_fdiv_zero (d e : ℝ) (hne : d ≠ e) :
    clip01 (fdiv (d - e) 0) = EFloat.fin (if e ≤ d then 1 else 0) := by
  have ha : ¬ (d - e = 0) := sub_ne_zero.2 hne
  rcases lt_or_gt_of_ne hne with hlt | hgt
  · have hneg : ¬ (0 < d - e) := by linarith
    have hdiv : fdiv (d - e) 0 = EFloat.ninf := by
      unfold fdiv; rw [if_pos rfl, if_neg ha, if_neg hneg]
    rw [hdiv]
    simp only [clip01]
    rw [if_neg (by linarith : ¬ e ≤ d)]
  · have hpos : 0 < d - e := by linarith
    have hdiv : fdiv (d - e) 0 = EFloat.pinf := by
      unfold fdiv; rw [if_pos rfl, if_neg ha, if_pos hpos]
    rw [hdiv]
    simp only [clip01]
    rw [if_pos (by linarith : e ≤ d)]

/-- A sprite parameter bag with `softness = 0`, zero rotation and no
gradient; thickness `1/2` of the sprite extent. -/
noncomputable def spriteHard : SpriteParams where
  radius := 2 / 5
  size := 3 / 5
  thickness := 1 / 2
  softness := 0
  rotation := 0
  angle := 0
  length := 4 / 5
  length_falloff := true
  sides := 6
  points := 5
  rays := 4
  outer_radius := 2 / 5
  inner_radius := 1 / 4
  gradient := false
  intensity := 1
  falloff := 2
  blur := 0
  color_r := 255
  color_g := 255
  color_b := 255
  alpha := 1

/-- C4 (amended): the distance-based shapes whose source guards the
division — Circle, Square, N-Gon and Star — implement the claimed
falloff for every softness (clamp when `softness > 0`, hard step when
`softness = 0`); Line's perpendicular factor is likewise guarded, but
when `length_falloff` is set (its default) that factor is additionally
multiplied by the unguarded along-axis clip.  Ring, Cross and Sparkle
divide by `softness` unconditionally: for `softness > 0` Cross
implements the claimed per-bar falloff combined with `max`, but at
`softness = 0` any pixel whose distance equals the relevant extent
evaluates to `nan` (a `0/0` division) — the bar extent for Cross, either
radius for Ring, a ray boundary for Sparkle — and off the boundary the
clipped infinities reproduce the hard step (shown for Cross and Ring). -/
theorem falloff_guarded_vs_unguarded (w h : ℕ) (p : SpriteParams) (y x : ℕ) :
    (p.gradient = false →
      circleIntensity w h p y x =
        claimFalloff (circleDist w h y x) (p.radius * (min w h : ℕ) / 2)
          (p.softness * (min w h : ℕ) / 2) ∧
      squareIntensity w h p y x =
        claimFalloff (squareDist w h p y x) (p.size * (min w h : ℕ) / 2)
          (p.softness * (min w h : ℕ) / 2) ∧
      ngonIntensity w h p y x =
        claimFalloff (ngonDist w h p y x) 0 (p.softness * (min w h : ℕ) / 2) ∧
      starIntensity w h p y x =
        claimFalloff (starDist w h p y x) 0 (p.softness * (min w h : ℕ) / 2)) ∧
    lineIntensity w h p y x =
      (if p.length_falloff then
        fmul (EFloat.fin (claimFalloff (lineDistPerp w h p y x)
            (p.thickness * (min w h : ℕ) / 2) (p.softness * (min w h : ℕ))))
          (clip01 (oneSub (fdiv
            (lineDistAlong w h p y x -
              p.length * Real.sqrt ((w : ℝ) ^ 2 + (h : ℝ) ^ 2) / 2)
            (p.length * Real.sqrt ((w : ℝ) ^ 2 + (h : ℝ) ^ 2) * 0.1))))
      else EFloat.fin (claimFalloff (lineDistPerp w h p y x)
          (p.thickness * (min w h : ℕ) / 2) (p.softness * (min w h : ℕ)))) ∧
    (0 < p.softness * (min w h : ℕ) →
      crossIntensity w h p y x =
        EFloat.fin (max
          (claimFalloff (crossDistH w h p y x) (p.thickness * (min w h : ℕ) / 2)
            (p.softness * (min w h : ℕ)))
          (claimFalloff (crossDistV w h p y x) (p.thickness * (min w h : ℕ) / 2)
            (p.softness * (min w h : ℕ))))) ∧
    (p.softness * (min w h : ℕ) = 0 →
      crossDistH w h p y x = p.thickness * (min w h : ℕ) / 2 →
      crossIntensity w h p y x = EFloat.nan) ∧
    (p.softness * (min w h : ℕ) = 0 →
      crossDistH w h p y x ≠ p.thickness * (min w h : ℕ) / 2 →
      crossDistV w h p y x ≠ p.thickness * (min w h : ℕ) / 2 →
      crossIntensity w h p y x =
        EFloat.fin (if crossDistH w h p y x ≤ p.thickness * (min w h : ℕ) / 2 ∨
          crossDistV w h p y x ≤ p.thickness * (min w h : ℕ) / 2 then 1 else 0)) ∧
    (p.softness * (min w h : ℕ) / 2 = 0 →
      (circleDist w h y x = p.outer_radius * (min w h : ℕ) / 2 ∨
        circleDist w h y x = p.inner_radius * (min w h : ℕ) / 2) →
      ringIntensity w h p y x = EFloat.nan) ∧
    (p.gradient = false → p.softness * (min w h : ℕ) / 2 = 0 →
      circleDist w h y x ≠ p.outer_radius * (min w h : ℕ) / 2 →
      circleDist w h y x ≠ p.inner_radius * (min w h : ℕ) / 2 →
      ringIntensity w h p y x =
        EFloat.fin ((if circleDist w h y x ≤ p.outer_radius * (min w h : ℕ) / 2
            then 1 else 0) *
          (if p.inner_radius * (min w h : ℕ) / 2 ≤ circleDist w h y x
            then 1 else 0))) ∧
    (p.softness * (min w h : ℕ) = 0 →
      ∀ i, i < p.rays →
        sparkleRayPerp w h p y x i = p.thickness * (min w h : ℕ) / 2 →
        sparkleIntensity w h p y x = EFloat.nan) := by
  refine ⟨?_, ?_, ?_, ?_, ?_, ?_, ?_, ?_⟩
  · intro hgrad
    refine ⟨?_, ?_, ?_, ?_⟩
    · simp only [circleIntensity, claimFalloff, hgrad, Bool.false_eq_true, if_false]
    · simp only [squareIntensity, claimFalloff, hgrad, Bool.false_eq_true, if_false]
    · simp only [ngonIntensity, claimFalloff, hgrad, Bool.false_eq_true, if_false,
        sub_zero]
    · simp only [starIntensity, claimFalloff, hgrad, Bool.false_eq_true, if_false,
        sub_zero]
  · simp only [lineIntensity, claimFalloff]
  · intro hs
    have hne : p.softness * ((min w h : ℕ) : ℝ) ≠ 0 := ne_of_gt hs
    simp only [crossIntensity, claimFalloff, fdiv, oneSub, clip01, fmax,
      if_neg hne, if_pos hs]
  · intro hs hdist
    have hnum : crossDistH w h p y x - p.thickness * ((min w h : ℕ) : ℝ) / 2 = 0 := by
      rw [hdist]; ring
    have hH : fdiv (crossDistH w h p y x - p.thickness * ((min w h : ℕ) : ℝ) / 2)
        (p.softness * ((min w h : ℕ) : ℝ)) = EFloat.nan := by
      unfold fdiv; rw [if_pos hs, if_pos hnum]
    simp only [crossIntensity, hH, oneSub, clip01, fmax]
  · intro hs hH hV
    simp only [crossIntensity, hs, clip01_oneSub_fdiv_zero _ _ hH,
      clip01_oneSub_fdiv_zero _ _ hV, fmax]
    congr 1
    split_ifs <;> first | tauto | norm_num [max_def]
  · intro hs hd
    simp only [ringIntensity, hs]
    rcases hd with hd | hd
    · have hnum : circleDist w h y x - p.outer_radius * ((min w h : ℕ) : ℝ) / 2 = 0 := by
        rw [hd]; ring
      have hdiv : fdiv (circleDist w h y x - p.outer_radius * ((min w h : ℕ) : ℝ) / 2) 0
          = EFloat.nan := by
        unfold fdiv; rw [if_pos rfl, if_pos hnum]
      rw [hdiv]
      simp only [oneSub, clip01, fmul_nan_left, ite_self]
    · have hnum : circleDist w h y x - p.inner_radius * ((min w h : ℕ) : ℝ) / 2 = 0 := by
        rw [hd]; ring
      have hdiv : fdiv (circleDist w h y x - p.inner_radius * ((min w h : ℕ) : ℝ) / 2) 0
          = EFloat.nan := by
        unfold fdiv; rw [if_pos rfl, if_pos hnum]
      rw [hdiv]
      simp only [clip01, fmul_nan_right, fmul_nan_left, ite_self]
  · intro hgrad hs hne1 hne2
    simp only [ringIntensity, hs, hgrad, Bool.false_eq_true, if_false,
      clip01_oneSub_fdiv_zero _ _ hne1, clip01_fdiv_zero _ _ hne2, fmul]
  · intro hs i hlt hperp
    have hnum : sparkleRayPerp w h p y x i - p.thickness * ((min w h : ℕ) : ℝ) / 2 = 0 := by
      rw [hperp]; ring
    have hdiv : fdiv (sparkleRayPerp w h p y x i - p.thickness * ((min w h : ℕ) : ℝ) / 2)
        (p.softness * ((min w h : ℕ) : ℝ)) = EFloat.nan := by
      unfold fdiv; rw [if_pos hs, if_pos hnum]
    have hray : sparkleRay w h p y x i = EFloat.nan := by
      simp only [sparkleRay, hdiv, oneSub, clip01, fmul_nan_left]
    have hacc : (List.range p.rays).foldl
        (fun acc i => fmax acc (sparkleRay w h p y x i)) (EFloat.fin 0) = EFloat.nan :=
      foldl_fmax_nan _ _ _ (Or.inr ⟨i, List.mem_range.2 hlt, hray⟩)
    simp only [sparkleIntensity, hacc, fmax_nan_left]

/-- Witness for C4: the guarded Circle falloff at a concrete input. -/
theorem falloff_guarded_vs_unguarded_witness :
    circleIntensity 4 4 spriteHard 2 2 =
      claimFalloff (circleDist 4 4 2 2) (spriteHard.radius * (min 4 4 : ℕ) / 2)
        (spriteHard.softness * (min 4 4 : ℕ) / 2) :=
  ((falloff_guarded_vs_unguarded 4 4 spriteHard 2 2).1 rfl).1

/-- Counterexample to C4 as stated: for Cross with `softness = 0` the
pixel `(y, x) = (1, 2)` of a 4×4 sprite has horizontal-bar distance `1`,
exactly the bar extent `thickness/2 = 1`, and the unguarded division
`0/0` makes the intensity `nan` — not the hard-step value `1` the claim
requires for `distance <= extent`. -/
theorem cross_zero_softness_nan :
    crossIntensity 4 4 spriteHard 1 2 = EFloat.nan ∧
      EFloat.nan ≠ EFloat.fin 1 := by
  constructor
  · have hrot : npRadians spriteHard.rotation = 0 := by
      simp [npRadians, spriteHard]
    have hdh : crossDistH 4 4 spriteHard 1 2 = 1 := by
      simp only [crossDistH, hrot, ne_eq, not_true_eq_false, if_false, ite_not]
      norm_num
    have hsoft : spriteHard.softness * ((min 4 4 : ℕ) : ℝ) = 0 := by
      norm_num [spriteHard]
    have hnum : crossDistH 4 4 spriteHard 1 2 -
        spriteHard.thickness * ((min 4 4 : ℕ) : ℝ) / 2 = 0 := by
      rw [hdh]; norm_num [spriteHard]
    have hH : fdiv (crossDistH 4 4 spriteHard 1 2 -
        spriteHard.thickness * ((min 4 4 : ℕ) : ℝ) / 2)
        (spriteHard.softness * ((min 4 4 : ℕ) : ℝ)) = EFloat.nan := by
      unfold fdiv; rw [if_pos hsoft, if_pos hnum]
    simp only [crossIntensity, hH, oneSub, clip01, fmax]
  · intro hcon
    exact EFloat.noConfusion hcon

/-- Truncation toward zero (the float-to-int step of a C-style cast). -/
noncomputable def pyTrunc (v : ℝ) : ℤ :=
  if 0 ≤ v then ⌊v⌋ else ⌈v⌉

/-- `astype(np.uint8)` on a float value: truncate toward zero, then wrap
modulo 256.  There is no clamping. -/
noncomputable def toU8 (v : ℝ) : ℤ :=
  pyTrunc v % 256

/-- `SpriteGenerator._apply_color_and_alpha` at one pixel: the four
channels `(intensity*r, intensity*g, intensity*b, intensity*alpha*255)`,
each cast with `astype(np.uint8)`. -/
noncomputable def applyColorAndAlpha (p : SpriteParams) (i : ℝ) : ℤ × ℤ × ℤ × ℤ :=
  (toU8 (i * p.color_r), toU8 (i * p.color_g), toU8 (i * p.color_b),
    toU8 (i * p.alpha * 255))

/-- Intensity field of `SpriteGenerator._glow` before the optional blur:
`(1 - clip(dist/(max_dist*radius), 0, 1)) ** falloff * intensity`. -/
noncomputable def glowIntensityBase (w h : ℕ) (p : SpriteParams) : ℕ → ℕ → ℝ :=
  fun y x =>
    let cx := (w : ℝ) / 2
    let cy := (h : ℝ) / 2
    let dist := Real.sqrt ((x - cx) ^ 2 + (y - cy) ^ 2)
    let maxDist := Real.sqrt (cx ^ 2 + cy ^ 2)
    let normDist := dist / (maxDist * p.radius)
    (1 - max 0 (min normDist 1)) ^ p.falloff * p.intensity

/-- Intensity field of `SpriteGenerator._glow`; the external
`scipy.ndimage.gaussian_filter` is the opaque parameter `gauss`
(applied only when `blur > 0`). -/
noncomputable def glowIntensity (gauss : (ℕ → ℕ → ℝ) → ℝ → ℕ → ℕ → ℝ)
    (w h : ℕ) (p : SpriteParams) : ℕ → ℕ → ℝ :=
  if p.blur > 0 then gauss (glowIntensityBase w h p) (p.blur * ((min w h : ℕ) : ℝ) / 10)
  else glowIntensityBase w h p

/-- `SpriteGenerator._glow` at one pixel: intensity, then color/alpha. -/
noncomputable def glowRGBA (gauss : (ℕ → ℕ → ℝ) → ℝ → ℕ → ℕ → ℝ)
    (w h : ℕ) (p : SpriteParams) (y x : ℕ) : ℤ × ℤ × ℤ × ℤ :=
  applyColorAndAlpha p (glowIntensity gauss w h p y x)

/-- The `uint8` cast does not wrap for values already in `[0, 255]`: it
is plain truncation. -/
theorem toU8_no_wrap (v : ℝ) (h0 : 0 ≤ v) (h1 : v ≤ 255) :
    toU8 v = ⌊v⌋ ∧ 0 ≤ toU8 v ∧ toU8 v ≤ 255 := by
  have hf0 : 0 ≤ ⌊v⌋ := Int.floor_nonneg.2 h0
  have hf1 : ⌊v⌋ ≤ 255 := by
    have := Int.floor_le_floor h1
    simpa using this
  have e : toU8 v = ⌊v⌋ := by
    unfold toU8 pyTrunc
    rw [if_pos h0, Int.emod_eq_of_lt hf0 (by omega)]
  exact ⟨e, by rw [e]; exact hf0, by rw [e]; exact hf1⟩

/-- C5 (amended): each RGBA channel is the truncation toward zero of
`intensity * channel`, reduced modulo 256 (a numpy `uint8` cast — not a
clamp).  For `intensity ∈ [0, 1]`, colors in `[0, 255]` and
`alpha ∈ [0, 1]`, every channel stays in `[0, 255]` with no wraparound. -/
theorem apply_color_no_wrap (p : SpriteParams) (i : ℝ)
    (hi0 : 0 ≤ i) (hi1 : i ≤ 1)
    (hr : 0 ≤ p.color_r ∧ p.color_r ≤ 255)
    (hg : 0 ≤ p.color_g ∧ p.color_g ≤ 255)
    (hb : 0 ≤ p.color_b ∧ p.color_b ≤ 255)
    (ha : 0 ≤ p.alpha ∧ p.alpha ≤ 1) :
    applyColorAndAlpha p i =
      (⌊i * p.color_r⌋, ⌊i * p.color_g⌋, ⌊i * p.color_b⌋, ⌊i * p.alpha * 255⌋) ∧
    (0 ≤ ⌊i * (p.color_r : ℝ)⌋ ∧ ⌊i * (p.color_r : ℝ)⌋ ≤ 255) ∧
    (0 ≤ ⌊i * (p.color_g : ℝ)⌋ ∧ ⌊i * (p.color_g : ℝ)⌋ ≤ 255) ∧
    (0 ≤ ⌊i * (p.color_b : ℝ)⌋ ∧ ⌊i * (p.color_b : ℝ)⌋ ≤ 255) ∧
    (0 ≤ ⌊i * p.alpha * 255⌋ ∧ ⌊i * p.alpha * 255⌋ ≤ 255) := by
  have hchan : ∀ c : ℤ, 0 ≤ c → c ≤ 255 →
      0 ≤ i * (c : ℝ) ∧ i * (c : ℝ) ≤ 255 := by
    intro c hc0 hc1
    have hc0' : (0 : ℝ) ≤ (c : ℝ) := by exact_mod_cast hc0
    have hc1' : (c : ℝ) ≤ 255 := by exact_mod_cast hc1
    constructor
    · exact mul_nonneg hi0 hc0'
    · calc i * (c : ℝ) ≤ 1 * 255 := by
            apply mul_le_mul hi1 hc1' hc0' (by norm_num)
        _ = 255 := by norm_num
  have halpha : 0 ≤ i * p.alpha * 255 ∧ i * p.alpha * 255 ≤ 255 := by
    constructor
    · have := mul_nonneg hi0 ha.1
      nlinarith
    · nlinarith [ha.1, ha.2, hi0, hi1]
  have hrch := hchan p.color_r hr.1 hr.2
  have hgch := hchan p.color_g hg.1 hg.2
  have hbch := hchan p.color_b hb.1 hb.2
  have tR := toU8_no_wrap _ hrch.1 hrch.2
  have tG := toU8_no_wrap _ hgch.1 hgch.2
  have tB := toU8_no_wrap _ hbch.1 hbch.2
  have tA := toU8_no_wrap _ halpha.1 halpha.2
  refine ⟨?_, ⟨?_, ?_⟩, ⟨?_, ?_⟩, ⟨?_, ?_⟩, ⟨?_, ?_⟩⟩
  · simp only [applyColorAndAlpha, tR.1, tG.1, tB.1, tA.1]
  · rw [← tR.1]; exact tR.2.1
  · rw [← tR.1]; exact tR.2.2
  · rw [← tG.1]; exact tG.2.1
  · rw [← tG.1]; exact tG.2.2
  · rw [← tB.1]; exact tB.2.1
  · rw [← tB.1]; exact tB.2.2
  · rw [← tA.1]; exact tA.2.1
  · rw [← tA.1]; exact tA.2.2

/-- Witness for C5 at intensity `1/2` and full-range colors. -/
theorem apply_color_no_wrap_witness :
    0 ≤ (applyColorAndAlpha spriteHard (1 / 2)).1 ∧
      (applyColorAndAlpha spriteHard (1 / 2)).1 ≤ 255 := by
  have hth := apply_color_no_wrap spriteHard (1 / 2) (by norm_num) (by norm_num)
    (by constructor <;> norm_num [spriteHard]) (by constructor <;> norm_num [spriteHard])
    (by constructor <;> norm_num [spriteHard]) (by constructor <;> norm_num [spriteHard])
  have e1 : (applyColorAndAlpha spriteHard (1 / 2)).1 = ⌊(1 / 2 : ℝ) * spriteHard.color_r⌋ :=
    congrArg Prod.fst hth.1
  rw [e1]
  exact hth.2.1

/-- An identity stand-in for the external gaussian blur (irrelevant
because the counterexample uses `blur = 0`). -/
def idGauss : (ℕ → ℕ → ℝ) → ℝ → ℕ → ℕ → ℝ := fun f _ => f

/-- A Glow parameter bag with intensity multiplier `2`. -/
noncomputable def glowHot : SpriteParams where
  radius := 1 / 2
  size := 3 / 5
  thickness := 0
  softness := 0
  rotation := 0
  angle := 0
  length := 4 / 5
  length_falloff := true
  sides := 6
  points := 5
  rays := 4
  outer_radius := 2 / 5
  inner_radius := 1 / 4
  gradient := false
  intensity := 2
  falloff := 2
  blur := 0
  color_r := 255
  color_g := 255
  color_b := 255
  alpha := 1

/-- Counterexample to C5 as stated: Glow with intensity multiplier `2`
and `color_r = 255` casts `2*255 = 510` to `uint8` at the center pixel
of a 4×4 sprite, which wraps to `254` instead of clamping to `255`. -/
theorem glow_channel_wraps :
    (glowRGBA idGauss 4 4 glowHot 2 2).1 = 254 ∧ (254 : ℤ) ≠ 255 := by
  have hint : glowIntensity idGauss 4 4 glowHot 2 2 = 2 := by
    have hblur : ¬ (glowHot.blur > 0) := by norm_num [glowHot]
    rw [glowIntensity, if_neg hblur]
    show (1 - max 0 (min (Real.sqrt (((2 : ℕ) - (4 : ℝ) / 2) ^ 2 +
        ((2 : ℕ) - (4 : ℝ) / 2) ^ 2) /
        (Real.sqrt (((4 : ℝ) / 2) ^ 2 + ((4 : ℝ) / 2) ^ 2) * glowHot.radius)) 1)) ^
        glowHot.falloff * glowHot.intensity = 2
    have hzero : ((2 : ℕ) - (4 : ℝ) / 2) ^ 2 + ((2 : ℕ) - (4 : ℝ) / 2) ^ 2 = 0 := by
      norm_num
    rw [hzero, Real.sqrt_zero, zero_div]
    norm_num [glowHot, Real.one_rpow]
  have e : (glowRGBA idGauss 4 4 glowHot 2 2).1 = toU8 (2 * glowHot.color_r) := by
    simp only [glowRGBA, applyColorAndAlpha, hint]
  rw [e]
  constructor
  · have h510 : (2 : ℝ) * glowHot.color_r = 510 := by norm_num [glowHot]
    rw [h510]
    unfold toU8 pyTrunc
    rw [if_pos (by norm_num)]
    norm_num
  · norm_num

/-- `SpriteGeneratorGUI.apply_curve`: string-dispatched easing curves on
a progress value `t`. -/
def apply_curve (t : ℚ) (curveType : String) : ℚ :=
  if curveType = "Linear" then t
  else if curveType = "Ease In" then t * t
  else if curveType = "Ease Out" then 1 - (1 - t) * (1 - t)
  else if curveType = "Ease In/Out" then
    if t < 1 / 2 then 2 * t * t else 1 - (-2 * t + 2) ^ 2 / 2
  else if curveType = "Stepped" then if t < 1 / 2 then 0 else 1
  else t

/-- `SpriteGeneratorGUI.calculate_animated_value`: when disabled, the
current static value; otherwise progress `frame/(totalFrames-1)` (zero
when `totalFrames <= 1`), the `Ping Pong` triangular fold or the
frame-seeded `Random` shortcut (`randFn` models
`random.seed(frame); random.random()`), then the curve, then linear
interpolation from `start` to `endVal`. -/
def calculate_animated_value (enabled : Bool) (currentVal start endVal : ℚ)
    (style curve : String) (randFn : ℕ → ℚ) (frame totalFrames : ℕ) : ℚ :=
  if !enabled then currentVal
  else
    let progress : ℚ := if totalFrames ≤ 1 then 0 else (frame : ℚ) / ((totalFrames : ℚ) - 1)
    if style = "Random" then start + randFn frame * (endVal - start)
    else
      let progress2 := if style = "Ping Pong" then
        (if progress ≤ 1 / 2 then progress * 2 else 2 - progress * 2) else progress
      start + (endVal - start) * apply_curve progress2 curve

/-- C8: with animation enabled, style Linear and curve Linear, the
animated value is `start` at frame `0` and `endVal` at frame `N-1` for
every `N > 1`; for `N = 1` the value at frame `0` is `start`. -/
theorem animator_linear_endpoints (currentVal start endVal : ℚ) (randFn : ℕ → ℚ) (n : ℕ) :
    (1 < n →
      calculate_animated_value true currentVal start endVal "Linear" "Linear" randFn 0 n
          = start ∧
      calculate_animated_value true currentVal start endVal "Linear" "Linear" randFn (n - 1) n
          = endVal) ∧
    calculate_animated_value true currentVal start endVal "Linear" "Linear" randFn 0 1
        = start := by
  constructor
  · intro hn
    have hn1 : ¬ (n ≤ 1) := by omega
    constructor
    · simp [calculate_animated_value, apply_curve, hn1]
    · have hcast : ((n - 1 : ℕ) : ℚ) = (n : ℚ) - 1 := by
        push_cast [Nat.cast_sub (by omega : 1 ≤ n)]
        ring
      have hne : (n : ℚ) - 1 ≠ 0 := by
        have : (2 : ℚ) ≤ (n : ℚ) := by exact_mod_cast hn
        linarith
      simp only [calculate_animated_value, Bool.not_true, Bool.false_eq_true, if_false,
        if_neg hn1]
      rw [if_neg (by decide : ¬ ("Linear" : String) = "Random"),
        if_neg (by decide : ¬ ("Linear" : String) = "Ping Pong")]
      simp only [apply_curve, if_pos rfl]
      rw [hcast, div_self hne]
      simp
  · simp [calculate_animated_value, apply_curve]

/-- Witness for C8 at `N = 3`, `start = 5`, `endVal = 9`. -/
theorem animator_linear_endpoints_witness :
    calculate_animated_value true 0 (5 : ℚ) 9 "Linear" "Linear" (fun _ => 0) 2 3 = 9 := by
  have h := (animator_linear_endpoints 0 5 9 (fun _ => 0) 3).1 (by norm_num)
  exact h.2

/-- `math.ceil(math.sqrt(n))` on a natural number. -/
def ceilSqrt (n : ℕ) : ℕ :=
  if Nat.sqrt n * Nat.sqrt n = n then Nat.sqrt n else Nat.sqrt n + 1

/-- AutoSquare columns: `cols = ceil(sqrt(frame_count))` (identical in
`SpriteGeneratorGUI.auto_calculate_atlas_layout` and
`NoiseGeneratorGUI.export_atlas`). -/
def autoSquareCols (frameCount : ℕ) : ℕ :=
  ceilSqrt frameCount

/-- AutoSquare rows: `rows = ceil(frame_count / cols)`, i.e.
`(n + cols - 1) / cols` in integer arithmetic. -/
def autoSquareRows (frameCount : ℕ) : ℕ :=
  (frameCount + autoSquareCols frameCount - 1) / autoSquareCols frameCount

/-- Ceiling division bound: `n <= c * ceil(n/c)`. -/
theorem le_mul_ceilDiv (n c : ℕ) (hc : 0 < c) : n ≤ c * ((n + c - 1) / c) := by
  have h1 := Nat.div_add_mod (n + c - 1) c
  have h2 := Nat.mod_lt (n + c - 1) hc
  generalize hcq : c * ((n + c - 1) / c) = a at h1 ⊢
  omega

/-- C7: for `frameCount >= 1` the AutoSquare layout takes
`cols = ceil(sqrt(frameCount))` (characterized by
`(cols-1)^2 < frameCount <= cols^2`) and `rows = ceil(frameCount/cols)`,
and the grid covers all frames: `cols * rows >= frameCount`; in
particular `frameCount = 17` gives `cols = 5`, `rows = 4`. -/
theorem auto_square_layout (n : ℕ) (hn : 1 ≤ n) :
    n ≤ autoSquareCols n ^ 2 ∧ (autoSquareCols n - 1) ^ 2 < n ∧
    n ≤ autoSquareCols n * autoSquareRows n ∧
    autoSquareCols 17 = 5 ∧ autoSquareRows 17 = 4 := by
  have hs1 : 1 ≤ Nat.sqrt n := Nat.sqrt_pos.2 hn
  have hupper : n ≤ autoSquareCols n ^ 2 := by
    unfold autoSquareCols ceilSqrt
    split_ifs with he
    · nlinarith [he]
    · exact le_of_lt (by simpa [Nat.succ_eq_add_one] using Nat.lt_succ_sqrt' n)
  have hlower : (autoSquareCols n - 1) ^ 2 < n := by
    unfold autoSquareCols ceilSqrt
    split_ifs with he
    · have hlt : Nat.sqrt n - 1 < Nat.sqrt n := by omega
      calc (Nat.sqrt n - 1) ^ 2 < Nat.sqrt n ^ 2 :=
            Nat.pow_lt_pow_left hlt (by norm_num)
        _ = n := by nlinarith [he]
    · have hle := Nat.sqrt_le' n
      have hne2 : Nat.sqrt n ^ 2 ≠ n := by
        intro hcon
        exact he (by nlinarith [hcon])
      have he1 : Nat.sqrt n + 1 - 1 = Nat.sqrt n := by omega
      rw [he1]
      exact lt_of_le_of_ne hle hne2
  have hcpos : 0 < autoSquareCols n := by
    rcases Nat.eq_zero_or_pos (autoSquareCols n) with h0 | h0
    · rw [h0] at hupper
      simp at hupper
      omega
    · exact h0
  have hcover : n ≤ autoSquareCols n * autoSquareRows n := by
    unfold autoSquareRows
    exact le_mul_ceilDiv n (autoSquareCols n) hcpos
  have hsq17 : Nat.sqrt 17 = 4 := by
    symm
    rw [Nat.eq_sqrt]
    norm_num
  have hc17 : autoSquareCols 17 = 5 := by
    norm_num [autoSquareCols, ceilSqrt, hsq17]
  have hr17 : autoSquareRows 17 = 4 := by
    norm_num [autoSquareRows, hc17]
  refine ⟨hupper, hlower, hcover, hc17, hr17⟩

/-- Witness for C7 at `frameCount = 17`. -/
theorem auto_square_layout_witness :
    17 ≤ autoSquareCols 17 * autoSquareRows 17 := by
  exact (auto_square_layout 17 (by norm_num)).2.2.1

/-- Python `len(str(n))` for a natural number. -/
def pyLenStr (n : ℕ) : ℕ :=
  (Nat.repr n).length

/-- `padding_width = len(str(num_frames))` from
`NoiseGeneratorGUI.export_sequence`. -/
def padding_width (numFrames : ℕ) : ℕ :=
  pyLenStr numFrames

/-- The f-string `f"{i:0{wd}d}"` for a nonnegative integer rendering
`s`: left-pad with zeros up to width `wd`. -/
def zeroPad (wd : ℕ) (s : String) : String :=
  String.mk (List.replicate (wd - s.length) '0') ++ s

/-- The per-frame filename
`f"{frame_prefix}_frame_{i:0{padding_width}d}.png"` of
`NoiseGeneratorGUI.export_sequence`. -/
def frame_filename (framePfx : String) (padWidth : ℕ) (i : ℕ) : String :=
  framePfx ++ "_frame_" ++ zeroPad padWidth (Nat.repr i) ++ ".png"

/-- C6 (amended): the exported frame filename embeds the frame index
zero-padded to exactly `len(str(frameCount))` digits (the code pads to
the digit count of `frameCount`, not of `frameCount - 1`), after the
caller-derived prefix.  The digit-count bound on the index is the
hypothesis `i < 10 ^ padding_width frameCount`, which holds for every
`i < frameCount`. -/
theorem sequence_padding (framePfx : String) (frameCount i : ℕ)
    (hL : 0 < padding_width frameCount)
    (hi : i < 10 ^ padding_width frameCount) :
    (zeroPad (padding_width frameCount) (Nat.repr i)).length = padding_width frameCount ∧
    frame_filename framePfx (padding_width frameCount) i =
      framePfx ++ "_frame_" ++ zeroPad (padding_width frameCount) (Nat.repr i) ++ ".png" := by
  have hlen : (Nat.repr i).length ≤ padding_width frameCount :=
    Nat.repr_length i (padding_width frameCount) hL hi
  constructor
  · unfold zeroPad
    rw [String.length_append]
    simp only [String.length_mk, List.length_replicate]
    omega
  · rfl

/-- Witness for C6 at 10 frames, frame index 3. -/
theorem sequence_padding_witness :
    (zeroPad (padding_width 10) (Nat.repr 3)).length = padding_width 10 :=
  (sequence_padding "perlin_v00" 10 3 (by decide) (by decide)).1

/-- Counterexample to C6 as stated: for 10 frames the code pads to
`len(str(10)) = 2` digits, not `len(str(10 - 1)) = 1`; frame 3 of a
10-frame export is named `..._frame_03.png`, whose index field has two
digits. -/
theorem sequence_padding_not_pred :
    padding_width 10 = 2 ∧ pyLenStr (10 - 1) = 1 ∧ (2 : ℕ) ≠ 1 ∧
      frame_filename "perlin_v00" (padding_width 10) 3 = "perlin_v00_frame_03.png" := by
  refine ⟨by decide, by decide, by decide, ?_⟩
  decide
